import Mathlib

/-!
Verification of the random-cracker repository: a shallow embedding of its
MT19937 kernel, xorshift128+ kernel, state-to-double converters, the V8
incremental solver status machine, the MT19937 algebraic solver, and the
cracker factory, together with proofs of the specified properties.

Machine integers are modelled as natural numbers with explicit masking,
exactly as the Python source manipulates unbounded ints with bit masks.
-/

namespace RandomCrackerVerif


/-! ### MT19937 tempering kernel

Constants and the tempering block, from src/mersenne_twister_cracker.py
(lines 17-37 and the tempering section of gen_rand_uint32, lines 143-149);
src/mt19937_cracker.py repeats the same constants (lines 13-33).
-/

def UINT32_MASK : ℕ := (1 <<< 32) - 1

def TEMPERING_U : ℕ := 11

def TEMPERING_D : ℕ := UINT32_MASK

def TEMPERING_S : ℕ := 7

def TEMPERING_B : ℕ := 0x9D2C5680

def TEMPERING_T : ℕ := 15

def TEMPERING_C : ℕ := 0xEFC60000

def TEMPERING_L : ℕ := 18

/-- The tempering permutation applied to a raw state word by
MersenneTwisterGenerator.gen_rand_uint32 (src/mersenne_twister_cracker.py,
lines 143-149), including the final masking of the return statement. -/
def temper (y : ℕ) : ℕ :=
  let y1 := y ^^^ ((y >>> TEMPERING_U) &&& TEMPERING_D)
  let y2 := y1 ^^^ ((y1 <<< TEMPERING_S) &&& TEMPERING_B)
  let y3 := y2 ^^^ ((y2 <<< TEMPERING_T) &&& TEMPERING_C)
  let y4 := y3 ^^^ (y3 >>> TEMPERING_L)
  y4 &&& UINT32_MASK

/-- Iterations of the loop body of MT19937Cracker._untemper_right_shift:
res is initialised to y and each step performs res := y xor ((res >>> s) and m). -/
def untemperRightAux (y s m : ℕ) : ℕ → ℕ
  | 0 => y
  | i + 1 => y ^^^ ((untemperRightAux y s m i >>> s) &&& m)

/-- MT19937Cracker._untemper_right_shift (src/mt19937_cracker.py, lines 102-115):
the loop body runs 32 / s + 1 times. -/
def untemper_right_shift (y s m : ℕ) : ℕ :=
  untemperRightAux y s m (32 / s + 1)

/-- Iterations of the loop body of MT19937Cracker._untemper_left_shift:
res is initialised to y and each step performs res := y xor ((res <<< s) and m). -/
def untemperLeftAux (y s m : ℕ) : ℕ → ℕ
  | 0 => y
  | i + 1 => y ^^^ ((untemperLeftAux y s m i <<< s) &&& m)

/-- MT19937Cracker._untemper_left_shift (src/mt19937_cracker.py, lines 117-130):
the loop body runs 32 / s + 1 times. -/
def untemper_left_shift (y s m : ℕ) : ℕ :=
  untemperLeftAux y s m (32 / s + 1)

/-- MT19937Cracker._untemper (src/mt19937_cracker.py, lines 93-100): reverses
the four tempering steps in reverse order. -/
def untemper (y : ℕ) : ℕ :=
  untemper_right_shift
    (untemper_left_shift
      (untemper_left_shift
        (untemper_right_shift y TEMPERING_L UINT32_MASK)
        TEMPERING_T TEMPERING_C)
      TEMPERING_S TEMPERING_B)
    TEMPERING_U TEMPERING_D

/-! ### xorshift128+ kernel

From src/v8_cracker.py: the 64-bit mask (line 30) and
XorShift128PlusUtil.next_state / previous_state (lines 77-96).
-/

def UINT64_MASK : ℕ := (1 <<< 64) - 1

/-- XorShift128PlusUtil.next_state (src/v8_cracker.py, lines 80-88). -/
def next_state (s0 s1 : ℕ) : ℕ × ℕ :=
  let s0_next := s1
  let t1 := s0 ^^^ ((s0 <<< 23) &&& UINT64_MASK)
  let t2 := t1 ^^^ (t1 >>> 17)
  let t3 := t2 ^^^ s0_next
  let t4 := t3 ^^^ (s0_next >>> 26)
  (s0_next, t4)

/-- XorShift128PlusUtil.previous_state (src/v8_cracker.py, lines 90-96). -/
def previous_state (s0_next s1_next : ℕ) : ℕ × ℕ :=
  let s1_prev := s0_next
  let temp := s1_next ^^^ s1_prev ^^^ (s1_prev >>> 26)
  let temp2 := temp ^^^ (temp >>> 17) ^^^ (temp >>> 34) ^^^ (temp >>> 51)
  let s0_prev := (temp2 ^^^ (temp2 <<< 23) ^^^ (temp2 <<< 46)) &&& UINT64_MASK
  (s0_prev, s1_prev)

/-! ### State-to-double converters

Doubles are modelled as exact rational numbers: every value these converters
produce or consume is a dyadic rational with at most 53 significant bits, on
which the IEEE-754 double operations used by the source (division by a power
of two, multiplication by a power of two, adding or subtracting 1.0,
truncation to int) are all exact.
-/

def TWO_POW_53 : ℕ := 1 <<< 53

def EXPONENT_MASK : ℕ := 0x3FF0000000000000

/-- A state-to-double conversion strategy, the interface RNGStateConverter of
src/v8_cracker.py (lines 39-52). -/
structure RNGStateConverter where
  get_ignored_lower_bits : ℕ
  to_double : ℕ → ℚ
  from_double : ℚ → ℕ

/-- DivisionConverter (src/v8_cracker.py, lines 55-74): to_double divides the
upper 53 bits of the state by 2 to the 53; from_double multiplies back and
truncates. Python int() truncates toward zero, which on the nonnegative
values in [0, 1) handled here is the floor. -/
def DivisionConverter : RNGStateConverter where
  get_ignored_lower_bits := 11
  to_double := fun state => ((state >>> 11 : ℕ) : ℚ) / (TWO_POW_53 : ℚ)
  from_double := fun value => ((⌊value * (TWO_POW_53 : ℚ)⌋).toNat <<< 11) &&& UINT64_MASK

/-- The value of an IEEE-754 double whose 64-bit pattern has sign 0 and the
exponent field of 1.0 (bits 52-61 equal to 0x3FF): such a double lies in
[1, 2) and its value is 1 plus the 52-bit mantissa divided by 2 to the 52.
Models struct.unpack of struct.pack output in BinaryCastConverter.to_double. -/
def doubleOfBits (bits : ℕ) : ℚ :=
  1 + ((bits &&& (2 ^ 52 - 1) : ℕ) : ℚ) / 2 ^ 52

/-- The 64-bit pattern of an IEEE-754 double in [1, 2) whose mantissa is an
exact 52-bit dyadic: the exponent field of 1.0 together with the mantissa.
Models struct.pack in BinaryCastConverter.from_double. -/
def bitsOfDouble (q : ℚ) : ℕ :=
  EXPONENT_MASK ||| (⌊(q - 1) * 2 ^ 52⌋).toNat

/-- BinaryCastConverter (src/v8_cracker_legacy.py, lines 10-34): to_double ORs
the upper 52 bits of the state with the bit pattern of 1.0, reinterprets as a
double and subtracts 1.0; from_double adds 1.0, takes the bit pattern and
shifts it back up. -/
def BinaryCastConverter : RNGStateConverter where
  get_ignored_lower_bits := 12
  to_double := fun state => doubleOfBits ((state >>> 12) ||| EXPONENT_MASK) - 1
  from_double := fun value => (bitsOfDouble (value + 1) <<< 12) &&& UINT64_MASK

/-! ### Solver status, errors, and the V8 incremental solver

The status machine of V8Cracker (src/v8_cracker.py, lines 99-273). The Z3
solver is external code; it is abstracted as an oracle giving, for the ordered
list of observation values whose constraints are currently asserted, the
verdict of solver.check(), whether the model assigns both symbolic variables
(len(model) == 2), and the model values of (s0, s1). This is faithful because
every asserted constraint is a function of one observed value and of its
position: _add_constraint pushes one bit-vector equality for the value and
rotates the symbolic pair once, so the solver content is exactly determined
by the ordered value list.
-/

/-- SolverStatus (src/random_cracker.py, lines 32-49). -/
inductive SolverStatus where
  | SOLVING
  | SOLVED
  | NOT_SOLVABLE
  | SOLVED_BEFORE_CACHE_REFILL
  | CACHE_REFILLED_WHILE_SOLVING
  deriving DecidableEq, Repr

/-- The error kinds raised by the crackers: NotSolvableError and
NotEnoughDataError (src/random_cracker.py, lines 52-59), plus the KeyError a
Python dict lookup would raise on a status missing from a handler table. -/
inductive CrackerError where
  | notSolvable
  | notEnoughData
  | keyError
  deriving DecidableEq, Repr

def CACHE_REFILL_SIZE : ℕ := 64

/-- Abstraction of the external Z3 solver, keyed by the ordered list of
observation values whose constraints are asserted. -/
structure SmtOracle where
  check : List ℚ → Bool
  modelComplete : List ℚ → Bool
  model : List ℚ → ℕ × ℕ

/-- The mutable state of a V8Cracker (src/v8_cracker.py, lines 127-136):
status, the concrete candidate pair, the refill counter, the buffered
observations, and the list of values whose constraints are currently in the
Z3 solver. -/
structure V8CrackerState where
  status : SolverStatus
  s0_val : ℕ
  s1_val : ℕ
  cache_refill_counter : ℤ
  observed_values : List ℚ
  constraints : List ℚ
  deriving DecidableEq, Repr

/-- V8Cracker.__init__ (src/v8_cracker.py, lines 127-136). -/
def initV8Cracker : V8CrackerState :=
  ⟨SolverStatus.SOLVING, 0, 0, 0, [], []⟩

/-- V8Cracker._peek_next_prediction (line 261-262). -/
def peek_next_prediction (conv : RNGStateConverter) (st : V8CrackerState) : ℚ :=
  conv.to_double st.s0_val

/-- V8Cracker._is_prediction_correct (lines 264-265). -/
def is_prediction_correct (conv : RNGStateConverter) (st : V8CrackerState) (v : ℚ) : Bool :=
  decide (peek_next_prediction conv st = v)

/-- V8Cracker._rotate_state (lines 249-252). -/
def rotate_state (st : V8CrackerState) : V8CrackerState :=
  { st with
    s0_val := (previous_state st.s0_val st.s1_val).1
    s1_val := (previous_state st.s0_val st.s1_val).2 }

/-- V8Cracker._add_constraint (lines 226-230): asserts the bit equality for
the new value and rotates the symbolic pair; in the oracle model this appends
the value to the asserted-constraint list. -/
def add_constraint (st : V8CrackerState) (v : ℚ) : V8CrackerState :=
  { st with constraints := st.constraints ++ [v] }

/-- V8Cracker._pop_oldest_constraint (lines 232-241): resets the solver,
drops the oldest observation and re-adds a constraint for each remaining
observation, so the asserted list becomes the new observation list. -/
def pop_oldest_constraint (st : V8CrackerState) : V8CrackerState :=
  { st with
    observed_values := st.observed_values.tail
    constraints := st.observed_values.tail }

/-- V8Cracker._update_state_from_model (lines 243-247). -/
def update_state_from_model (o : SmtOracle) (st : V8CrackerState) : V8CrackerState :=
  if o.modelComplete st.constraints then
    { st with
      s0_val := (o.model st.constraints).1
      s1_val := (o.model st.constraints).2 }
  else st

/-- Iterated forward transitions of the xorshift128+ state. -/
def nextStateIter : ℕ → ℕ × ℕ → ℕ × ℕ
  | 0, p => p
  | n + 1, p => nextStateIter n (next_state p.1 p.2)

/-- V8Cracker._handle_cache_refill (lines 267-272): advance the concrete
state by CACHE_REFILL_SIZE * 2 = 128 forward steps and reset the counter. -/
def handle_cache_refill (st : V8CrackerState) : V8CrackerState :=
  { st with
    s0_val := (nextStateIter (CACHE_REFILL_SIZE * 2) (st.s0_val, st.s1_val)).1
    s1_val := (nextStateIter (CACHE_REFILL_SIZE * 2) (st.s0_val, st.s1_val)).2
    cache_refill_counter := (CACHE_REFILL_SIZE : ℤ) }

/-- The while loop of _handle_cache_refilled_while_solving (lines 196-197):
while the check is not SAT, pop the oldest observation (which rebuilds the
constraint list as the new observation list) and re-check. The source loops
forever if the observation list empties and the empty constraint set is still
reported unsatisfiable; the model returns the emptied lists in that case, and
every theorem about this loop assumes the empty constraint set checks SAT,
which is true of the real Z3 solver. -/
def dropLoop (o : SmtOracle) (obs cs : List ℚ) : List ℚ × List ℚ :=
  if o.check cs then (obs, cs)
  else
    match obs with
    | [] => ([], [])
    | _ :: rest => dropLoop o rest rest
termination_by obs.length

/-- The combined pop-until-sat loop acting on the cracker state. -/
def drop_until_sat (o : SmtOracle) (st : V8CrackerState) : V8CrackerState :=
  { st with
    observed_values := (dropLoop o st.observed_values st.constraints).1
    constraints := (dropLoop o st.observed_values st.constraints).2 }

/-- V8Cracker._handle_solving (lines 176-185). -/
def handle_solving (conv : RNGStateConverter) (o : SmtOracle)
    (st : V8CrackerState) (v : ℚ) : V8CrackerState :=
  if is_prediction_correct conv st v then
    { rotate_state st with status := SolverStatus.SOLVED_BEFORE_CACHE_REFILL }
  else
    let st1 := add_constraint st v
    if o.check st1.constraints then update_state_from_model o st1
    else { st1 with status := SolverStatus.CACHE_REFILLED_WHILE_SOLVING }

/-- V8Cracker._handle_cache_refilled_while_solving (lines 187-198). The
observation list already contains the new value when the handler runs. -/
def handle_cache_refilled_while_solving (conv : RNGStateConverter) (o : SmtOracle)
    (st : V8CrackerState) (v : ℚ) : V8CrackerState :=
  if is_prediction_correct conv st v then
    { rotate_state st with
      cache_refill_counter :=
        (CACHE_REFILL_SIZE : ℤ) - (st.observed_values.length : ℤ) + 1
      status := SolverStatus.SOLVED }
  else
    update_state_from_model o (drop_until_sat o (add_constraint st v))

/-- V8Cracker._handle_solved_before_cache_refill (lines 200-209); the second
component records a raised NotSolvableError. -/
def handle_solved_before_cache_refill (conv : RNGStateConverter)
    (st : V8CrackerState) (v : ℚ) : V8CrackerState × Option CrackerError :=
  if is_prediction_correct conv st v then (rotate_state st, none)
  else
    let st2 := { handle_cache_refill st with status := SolverStatus.SOLVED }
    if is_prediction_correct conv st2 v then (rotate_state st2, none)
    else ({ st2 with status := SolverStatus.NOT_SOLVABLE }, some CrackerError.notSolvable)

/-- V8Cracker._handle_solved (lines 211-219). -/
def handle_solved (conv : RNGStateConverter) (st : V8CrackerState) (v : ℚ) :
    V8CrackerState × Option CrackerError :=
  let st1 := { st with cache_refill_counter := st.cache_refill_counter - 1 }
  let st2 := if st1.cache_refill_counter = 0 then handle_cache_refill st1 else st1
  if is_prediction_correct conv st2 v then (rotate_state st2, none)
  else ({ st2 with status := SolverStatus.NOT_SOLVABLE }, some CrackerError.notSolvable)

/-- V8Cracker.add_value (lines 142-145): append the observation, then
dispatch on the status; _handle_not_solvable (lines 221-222) raises. -/
def v8_add_value (conv : RNGStateConverter) (o : SmtOracle)
    (st : V8CrackerState) (v : ℚ) : V8CrackerState × Option CrackerError :=
  let st0 := { st with observed_values := st.observed_values ++ [v] }
  match st0.status with
  | SolverStatus.SOLVING => (handle_solving conv o st0 v, none)
  | SolverStatus.CACHE_REFILLED_WHILE_SOLVING =>
      (handle_cache_refilled_while_solving conv o st0 v, none)
  | SolverStatus.SOLVED_BEFORE_CACHE_REFILL =>
      handle_solved_before_cache_refill conv st0 v
  | SolverStatus.SOLVED => handle_solved conv st0 v
  | SolverStatus.NOT_SOLVABLE => (st0, some CrackerError.notSolvable)

/-! ### MT19937 generator and the algebraic MT19937 solver

MersenneTwisterGenerator from src/mersenne_twister_cracker.py (lines 40-196)
and MT19937Cracker from src/mt19937_cracker.py (lines 36-83). The cracker
installs the reconstructed state into a CPython _random.Random object, which
is external code; it is modelled by the repository's own
MersenneTwisterGenerator re-implementation, which the spec asserts produces
the identical 32-bit sequence. List indexing uses getD with default 0; every
state the solver builds has exactly 624 words, so the default is never hit.
-/

def N : ℕ := 624

def M : ℕ := 397

def MATRIX_A : ℕ := 0x9908B0DF

def UPPER_MASK : ℕ := 0x80000000

def LOWER_MASK : ℕ := 0x7FFFFFFF

/-- The generator state: the 624-word array and the index. -/
structure MersenneTwisterGenerator where
  mt : List ℕ
  mti : ℕ
  deriving DecidableEq, Repr

/-- The Python pair mag01 = (0, MATRIX_A) indexed by y and 1. -/
def mag01 (b : ℕ) : ℕ := if b = 0 then 0 else MATRIX_A

/-- One in-place assignment of MersenneTwisterGenerator._twist (lines
128-133); the sequential fold below reproduces the in-place mutation order. -/
def twistStep (mt : List ℕ) (i : ℕ) : List ℕ :=
  let y := (mt.getD i 0 &&& UPPER_MASK) ||| (mt.getD ((i + 1) % N) 0 &&& LOWER_MASK)
  mt.set i ((mt.getD ((i + M) % N) 0) ^^^ (y >>> 1) ^^^ mag01 (y &&& 1))

/-- MersenneTwisterGenerator._twist (lines 128-133). -/
def twist (mt : List ℕ) : List ℕ :=
  (List.range N).foldl twistStep mt

/-- MersenneTwisterGenerator.gen_rand_uint32 (lines 135-149): twist when the
index is exhausted, read the current word, advance the index, temper. -/
def gen_rand_uint32 (g : MersenneTwisterGenerator) :
    ℕ × MersenneTwisterGenerator :=
  let g1 := if g.mti ≥ N then { mt := twist g.mt, mti := 0 } else g
  (temper (g1.mt.getD g1.mti 0), { g1 with mti := g1.mti + 1 })

/-- The mutable state of MT19937Cracker (src/mt19937_cracker.py, lines
39-42): the status, the untempered words buffered so far, and the
reconstructed generator once installed. -/
structure MT19937CrackerState where
  status : SolverStatus
  state : List ℕ
  random : Option MersenneTwisterGenerator
  deriving DecidableEq, Repr

def initMT19937Cracker : MT19937CrackerState :=
  ⟨SolverStatus.SOLVING, [], none⟩

/-- MT19937Cracker._handle_solving (lines 70-74): buffer the untempered
value; on the 624th, install the reconstructed state with index 624. -/
def mt_handle_solving (st : MT19937CrackerState) (v : ℕ) : MT19937CrackerState :=
  let state2 := st.state ++ [untemper v]
  if state2.length = N then
    { status := SolverStatus.SOLVED
      state := state2
      random := some ⟨state2, N⟩ }
  else { st with state := state2 }

/-- MT19937Cracker.add_value (lines 48-50) dispatching to the three handlers
(lines 63-83); the handler table raises KeyError on any other status. -/
def mt_add_value (st : MT19937CrackerState) (v : ℕ) :
    MT19937CrackerState × Option CrackerError :=
  match st.status with
  | SolverStatus.SOLVING => (mt_handle_solving st v, none)
  | SolverStatus.SOLVED =>
      let r := gen_rand_uint32 (st.random.getD ⟨[], 0⟩)
      if r.1 = v then ({ st with random := some r.2 }, none)
      else ({ st with random := some r.2, status := SolverStatus.NOT_SOLVABLE },
        some CrackerError.notSolvable)
  | SolverStatus.NOT_SOLVABLE => (st, some CrackerError.notSolvable)
  | _ => (st, some CrackerError.keyError)

/-- MT19937Cracker.predict_next (lines 52-59). -/
def mt_predict_next (st : MT19937CrackerState) :
    MT19937CrackerState × Except CrackerError ℕ :=
  match st.status with
  | SolverStatus.SOLVING => (st, Except.error CrackerError.notEnoughData)
  | SolverStatus.SOLVED =>
      let r := gen_rand_uint32 (st.random.getD ⟨[], 0⟩)
      ({ st with random := some r.2 }, Except.ok r.1)
  | _ => (st, Except.error CrackerError.notSolvable)

/-- Feeding a list of observations into a solver state, ignoring raised
errors, as the test loops do. -/
def mt_feed_from (st : MT19937CrackerState) (vs : List ℕ) : MT19937CrackerState :=
  vs.foldl (fun s v => (mt_add_value s v).1) st

/-- Feeding a list of observations into a fresh MT19937 solver. -/
def mt_feed (vs : List ℕ) : MT19937CrackerState :=
  mt_feed_from initMT19937Cracker vs

def v8WitNS : V8CrackerState := ⟨SolverStatus.NOT_SOLVABLE, 0, 0, 0, [], []⟩

def mtWitNS : MT19937CrackerState := ⟨SolverStatus.NOT_SOLVABLE, [], none⟩

def oracleTrue : SmtOracle := ⟨fun _ => true, fun _ => true, fun _ => (0, 0)⟩

/-- What C1 asserts about the matching branch: on a correct prediction the
handler rotates the candidate, sets the refill counter to 64 minus the number
of buffered observations (the new one included) plus 1, and moves to SOLVED. -/
def C1MatchPost (conv : RNGStateConverter) (o : SmtOracle)
    (st : V8CrackerState) (v : ℚ) : Prop :=
  v8_add_value conv o st v =
    ({ st with
        observed_values := st.observed_values ++ [v]
        s0_val := (previous_state st.s0_val st.s1_val).1
        s1_val := (previous_state st.s0_val st.s1_val).2
        cache_refill_counter :=
          (CACHE_REFILL_SIZE : ℤ) - ((st.observed_values ++ [v]).length : ℤ) + 1
        status := SolverStatus.SOLVED }, none)

/-- What C1 asserts about the mismatching branch: the handler appends the
observation and its constraint, then drops the k oldest observations for the
least k whose remaining suffix checks SAT (k = 0 when the check is SAT
immediately), rebuilding the constraint list as that suffix, with the status
staying CACHE_REFILLED_WHILE_SOLVING and no error raised. -/
def C1MissPost (conv : RNGStateConverter) (o : SmtOracle)
    (st : V8CrackerState) (v : ℚ) : Prop :=
  ∃ k, k ≤ (st.observed_values ++ [v]).length ∧
    (v8_add_value conv o st v).2 = none ∧
    (v8_add_value conv o st v).1.status = SolverStatus.CACHE_REFILLED_WHILE_SOLVING ∧
    (v8_add_value conv o st v).1.observed_values = (st.observed_values ++ [v]).drop k ∧
    (v8_add_value conv o st v).1.constraints =
      (if k = 0 then st.constraints ++ [v] else (st.observed_values ++ [v]).drop k) ∧
    (k = 0 → o.check (st.constraints ++ [v]) = true) ∧
    (0 < k → o.check (st.constraints ++ [v]) = false ∧
      o.check ((st.observed_values ++ [v]).drop k) = true ∧
      ∀ j, 0 < j → j < k → o.check ((st.observed_values ++ [v]).drop j) = false)

def v8WitCRWS : V8CrackerState :=
  ⟨SolverStatus.CACHE_REFILLED_WHILE_SOLVING, 0, 0, 0, [], []⟩

/-- What C2 asserts when the re-check after the simulated refill matches:
counter 64, candidate advanced 128 steps and then rotated once, SOLVED. -/
def C2RecheckMatchPost (conv : RNGStateConverter) (o : SmtOracle)
    (st : V8CrackerState) (v : ℚ) : Prop :=
  v8_add_value conv o st v =
    ({ st with
        observed_values := st.observed_values ++ [v]
        s0_val := (previous_state
          (nextStateIter (CACHE_REFILL_SIZE * 2) (st.s0_val, st.s1_val)).1
          (nextStateIter (CACHE_REFILL_SIZE * 2) (st.s0_val, st.s1_val)).2).1
        s1_val := (previous_state
          (nextStateIter (CACHE_REFILL_SIZE * 2) (st.s0_val, st.s1_val)).1
          (nextStateIter (CACHE_REFILL_SIZE * 2) (st.s0_val, st.s1_val)).2).2
        cache_refill_counter := (CACHE_REFILL_SIZE : ℤ)
        status := SolverStatus.SOLVED }, none)

/-- What C2 asserts when the re-check still mismatches: counter 64, candidate
advanced 128 steps, terminal NOT_SOLVABLE and the not-solvable error. -/
def C2RecheckMissPost (conv : RNGStateConverter) (o : SmtOracle)
    (st : V8CrackerState) (v : ℚ) : Prop :=
  v8_add_value conv o st v =
    ({ st with
        observed_values := st.observed_values ++ [v]
        s0_val := (nextStateIter (CACHE_REFILL_SIZE * 2) (st.s0_val, st.s1_val)).1
        s1_val := (nextStateIter (CACHE_REFILL_SIZE * 2) (st.s0_val, st.s1_val)).2
        cache_refill_counter := (CACHE_REFILL_SIZE : ℤ)
        status := SolverStatus.NOT_SOLVABLE }, some CrackerError.notSolvable)

def v8WitSBCR : V8CrackerState :=
  ⟨SolverStatus.SOLVED_BEFORE_CACHE_REFILL, 0, 0, 0, [], []⟩

def mtWitGen : MersenneTwisterGenerator := ⟨[5], 0⟩

def mtWitSolved : MT19937CrackerState := ⟨SolverStatus.SOLVED, [], some mtWitGen⟩

def mtWitSolving : MT19937CrackerState := ⟨SolverStatus.SOLVING, [], none⟩

/-! ### The cracker factory

RngType and RandomCracker.create from src/random_cracker.py (lines 19-29 and
68-85). The enumeration defined there has exactly the members V8, V8_LEGACY
and MT19937; the name V8_INT used by src/v8_cracker_int.py is not a member,
so the attribute access RngType.V8_INT fails and V8IntCracker never becomes
a registered class. The registered concrete classes and their
inheritance-resolved rng_type attributes are: V8Cracker with RngType.V8
(src/v8_cracker.py line 122), its subclass V8CrackerLegacy which does not
override rng_type and therefore also carries RngType.V8
(src/v8_cracker_legacy.py lines 37-45), and MT19937Cracker with
RngType.MT19937 (src/mt19937_cracker.py line 37).
-/

/-- The RngType enumeration exactly as defined in src/random_cracker.py. -/
inductive RngType where
  | V8
  | V8_LEGACY
  | MT19937
  deriving DecidableEq, Repr

/-- Python attribute lookup RngType.name: some member for the three defined
names, none (an AttributeError) for anything else, in particular V8_INT. -/
def rngTypeMember (s : String) : Option RngType :=
  if s = "V8" then some RngType.V8
  else if s = "V8_LEGACY" then some RngType.V8_LEGACY
  else if s = "MT19937" then some RngType.MT19937
  else none

/-- A registered cracker class: its name, its inheritance-resolved rng_type
attribute, and its registered subclasses. -/
inductive PyClass where
  | mk (cname : String) (tag : RngType) (subs : List PyClass)

def PyClass.tag : PyClass → RngType
  | .mk _ t _ => t

def PyClass.subs : PyClass → List PyClass
  | .mk _ _ s => s

/-- The iterative depth-first search of RandomCracker.create (src/
random_cracker.py, lines 75-85): pop the last entry of the visit list, return
it when its rng_type matches, otherwise append its subclasses and continue;
an exhausted list means the ValueError at line 85. The fuel bounds the number
of visited classes and exceeds the number of registered classes, so the
search here is exhaustive. -/
def createVisit (rt : RngType) : ℕ → List PyClass → Option PyClass
  | 0, _ => none
  | fuel + 1, stack =>
    match stack.getLast? with
    | none => none
    | some c =>
      if c.tag = rt then some c
      else createVisit rt fuel (stack.dropLast ++ c.subs)

def V8CrackerLegacyClass : PyClass := PyClass.mk "V8CrackerLegacy" RngType.V8 []

def V8CrackerClass : PyClass := PyClass.mk "V8Cracker" RngType.V8 [V8CrackerLegacyClass]

def MT19937CrackerClass : PyClass := PyClass.mk "MT19937Cracker" RngType.MT19937 []

/-- The direct registered subclasses of RandomCracker. -/
def registeredCrackerClasses : List PyClass := [MT19937CrackerClass, V8CrackerClass]

/-- RandomCracker.create as a function from the requested tag to the class
the subclass search selects, none modelling the raised ValueError. -/
def create (rt : RngType) : Option PyClass :=
  createVisit rt 8 registeredCrackerClasses

theorem UINT32_MASK_eq : UINT32_MASK = 2 ^ 32 - 1 := by
  norm_num [UINT32_MASK, Nat.shiftLeft_eq]

theorem shiftRight_lt_two_pow {x : ℕ} {w : ℕ} (hx : x < 2 ^ w) (s : ℕ) :
    x >>> s < 2 ^ w := by
  rw [Nat.shiftRight_eq_div_pow]
  exact Nat.lt_of_le_of_lt (Nat.div_le_self x (2 ^ s)) hx

theorem untemperRightAux_lt {y s m : ℕ} (hy : y < 2 ^ 32) :
    ∀ i, untemperRightAux y s m i < 2 ^ 32 := by
  intro i
  induction i with
  | zero => exact hy
  | succ i ih =>
    exact Nat.xor_lt_two_pow hy
      (Nat.lt_of_le_of_lt Nat.and_le_left (shiftRight_lt_two_pow ih s))

theorem untemperLeftAux_lt {y s m : ℕ} (hy : y < 2 ^ 32) (hm : m < 2 ^ 32) :
    ∀ i, untemperLeftAux y s m i < 2 ^ 32 := by
  intro i
  induction i with
  | zero => exact hy
  | succ i ih => exact Nat.xor_lt_two_pow hy (Nat.and_lt_two_pow _ hm)

theorem untemperRightAux_testBit {x : ℕ} (s m : ℕ) (hx : x < 2 ^ 32) :
    ∀ i j, 32 ≤ j + i * s →
      (untemperRightAux (x ^^^ ((x >>> s) &&& m)) s m i).testBit j = x.testBit j := by
  intro i
  induction i with
  | zero =>
    intro j hj
    simp only [Nat.zero_mul, Nat.add_zero] at hj
    have hy : x ^^^ ((x >>> s) &&& m) < 2 ^ 32 :=
      Nat.xor_lt_two_pow hx (Nat.lt_of_le_of_lt Nat.and_le_left (shiftRight_lt_two_pow hx s))
    have hpow : (2 : ℕ) ^ 32 ≤ 2 ^ j := Nat.pow_le_pow_right (by norm_num) hj
    rw [untemperRightAux]
    rw [Nat.testBit_lt_two_pow (Nat.lt_of_lt_of_le hy hpow),
      Nat.testBit_lt_two_pow (Nat.lt_of_lt_of_le hx hpow)]
  | succ i ih =>
    intro j hj
    have hj2 : 32 ≤ (s + j) + i * s := by
      rw [Nat.succ_mul] at hj
      omega
    rw [untemperRightAux, Nat.testBit_xor, Nat.testBit_and, Nat.testBit_shiftRight,
      ih (s + j) hj2, Nat.testBit_xor, Nat.testBit_and, Nat.testBit_shiftRight]
    cases x.testBit j <;> cases x.testBit (s + j) <;> cases m.testBit j <;> rfl

theorem untemperLeftAux_testBit {x : ℕ} (s m : ℕ) :
    ∀ i j, j < i * s →
      (untemperLeftAux (x ^^^ ((x <<< s) &&& m)) s m i).testBit j = x.testBit j := by
  intro i
  induction i with
  | zero =>
    intro j hj
    rw [Nat.zero_mul] at hj
    exact absurd hj (Nat.not_lt_zero j)
  | succ i ih =>
    intro j hj
    rw [untemperLeftAux, Nat.testBit_xor, Nat.testBit_and, Nat.testBit_shiftLeft,
      Nat.testBit_xor, Nat.testBit_and, Nat.testBit_shiftLeft]
    by_cases hsj : s ≤ j
    · have hrec : j - s < i * s := by
        rw [Nat.succ_mul] at hj
        omega
      rw [ih (j - s) hrec]
      have hd : decide (j ≥ s) = true := decide_eq_true hsj
      rw [hd]
      cases x.testBit j <;> cases x.testBit (j - s) <;> cases m.testBit j <;> rfl
    · have hd : decide (j ≥ s) = false := decide_eq_false hsj
      rw [hd]
      cases x.testBit j <;> rfl

theorem succ_div_mul_gt (n : ℕ) {s : ℕ} (hs : 0 < s) : n < (n / s + 1) * s := by
  have h1 := Nat.div_add_mod n s
  have h2 := Nat.mod_lt n hs
  rw [Nat.mul_comm] at h1
  rw [Nat.succ_mul]
  omega

/-- The iterated right-shift reversal undoes y := x xor ((x >>> s) and m)
for every 32-bit x: the universally quantified inversion property of the
right-shift tempering steps. -/
theorem untemper_right_shift_inverts (x s m : ℕ) (hs : 0 < s) (hx : x < 2 ^ 32) :
    untemper_right_shift (x ^^^ ((x >>> s) &&& m)) s m = x := by
  apply Nat.eq_of_testBit_eq
  intro j
  apply untemperRightAux_testBit s m hx
  have := succ_div_mul_gt 32 hs
  omega

/-- The iterated left-shift reversal undoes y := x xor ((x <<< s) and m)
for every 32-bit x and 32-bit mask m. -/
theorem untemper_left_shift_inverts (x s m : ℕ) (hs : 0 < s) (hx : x < 2 ^ 32)
    (hm : m < 2 ^ 32) :
    untemper_left_shift (x ^^^ ((x <<< s) &&& m)) s m = x := by
  apply Nat.eq_of_testBit_eq
  intro j
  by_cases hj : j < (32 / s + 1) * s
  · exact untemperLeftAux_testBit s m _ j hj
  · have hy : x ^^^ ((x <<< s) &&& m) < 2 ^ 32 :=
      Nat.xor_lt_two_pow hx (Nat.and_lt_two_pow _ hm)
    have hj32 : 32 ≤ j := by
      have := succ_div_mul_gt 32 hs
      omega
    have hpow : (2 : ℕ) ^ 32 ≤ 2 ^ j := Nat.pow_le_pow_right (by norm_num) hj32
    rw [untemper_left_shift]
    rw [Nat.testBit_lt_two_pow
        (Nat.lt_of_lt_of_le (untemperLeftAux_lt hy hm _) hpow),
      Nat.testBit_lt_two_pow (Nat.lt_of_lt_of_le hx hpow)]

theorem mask_numeral_lt : (0x9D2C5680 : ℕ) < 2 ^ 32 ∧ (0xEFC60000 : ℕ) < 2 ^ 32 ∧
    UINT32_MASK < 2 ^ 32 := by
  refine ⟨by norm_num, by norm_num, ?_⟩
  rw [UINT32_MASK_eq]
  omega

/-- Untempering a tempered 32-bit word recovers the word. -/
theorem untemper_temper {x : ℕ} (hx : x < 2 ^ 32) : untemper (temper x) = x := by
  have hD : TEMPERING_D < 2 ^ 32 := mask_numeral_lt.2.2
  have hB : TEMPERING_B < 2 ^ 32 := mask_numeral_lt.1
  have hC : TEMPERING_C < 2 ^ 32 := mask_numeral_lt.2.1
  set y1 := x ^^^ ((x >>> TEMPERING_U) &&& TEMPERING_D) with hy1
  have hy1lt : y1 < 2 ^ 32 :=
    Nat.xor_lt_two_pow hx
      (Nat.lt_of_le_of_lt Nat.and_le_left (shiftRight_lt_two_pow hx _))
  set y2 := y1 ^^^ ((y1 <<< TEMPERING_S) &&& TEMPERING_B) with hy2
  have hy2lt : y2 < 2 ^ 32 := Nat.xor_lt_two_pow hy1lt (Nat.and_lt_two_pow _ hB)
  set y3 := y2 ^^^ ((y2 <<< TEMPERING_T) &&& TEMPERING_C) with hy3
  have hy3lt : y3 < 2 ^ 32 := Nat.xor_lt_two_pow hy2lt (Nat.and_lt_two_pow _ hC)
  set y4 := y3 ^^^ (y3 >>> TEMPERING_L) with hy4
  have hy4lt : y4 < 2 ^ 32 :=
    Nat.xor_lt_two_pow hy3lt (shiftRight_lt_two_pow hy3lt _)
  have htemper : temper x = y4 := by
    rw [temper, ← hy1, ← hy2, ← hy3, ← hy4, UINT32_MASK_eq,
      Nat.and_pow_two_sub_one_of_lt_two_pow hy4lt]
  have hmasked : y4 = y3 ^^^ ((y3 >>> TEMPERING_L) &&& UINT32_MASK) := by
    rw [hy4, UINT32_MASK_eq,
      Nat.and_pow_two_sub_one_of_lt_two_pow (shiftRight_lt_two_pow hy3lt _)]
  rw [untemper, htemper, hmasked,
    untemper_right_shift_inverts y3 TEMPERING_L UINT32_MASK (by norm_num [TEMPERING_L]) hy3lt,
    hy3, untemper_left_shift_inverts y2 TEMPERING_T TEMPERING_C (by norm_num [TEMPERING_T]) hy2lt hC,
    hy2, untemper_left_shift_inverts y1 TEMPERING_S TEMPERING_B (by norm_num [TEMPERING_S]) hy1lt hB,
    hy1, untemper_right_shift_inverts x TEMPERING_U TEMPERING_D (by norm_num [TEMPERING_U]) hx]

theorem temper_lt (x : ℕ) : temper x < 2 ^ 32 := by
  rw [temper, UINT32_MASK_eq]
  exact Nat.and_lt_two_pow _ (by omega)

theorem untemper_lt {y : ℕ} (hy : y < 2 ^ 32) : untemper y < 2 ^ 32 := by
  have hD : TEMPERING_D < 2 ^ 32 := mask_numeral_lt.2.2
  have hB : TEMPERING_B < 2 ^ 32 := mask_numeral_lt.1
  have hC : TEMPERING_C < 2 ^ 32 := mask_numeral_lt.2.1
  rw [untemper]
  set a1 := untemper_right_shift y TEMPERING_L UINT32_MASK with ha1
  have h1 : a1 < 2 ^ 32 := by
    rw [ha1, untemper_right_shift]
    exact untemperRightAux_lt hy _
  set a2 := untemper_left_shift a1 TEMPERING_T TEMPERING_C with ha2
  have h2 : a2 < 2 ^ 32 := by
    rw [ha2, untemper_left_shift]
    exact untemperLeftAux_lt h1 hC _
  set a3 := untemper_left_shift a2 TEMPERING_S TEMPERING_B with ha3
  have h3 : a3 < 2 ^ 32 := by
    rw [ha3, untemper_left_shift]
    exact untemperLeftAux_lt h2 hB _
  rw [untemper_right_shift]
  exact untemperRightAux_lt h3 _

/-- Tempering an untempered 32-bit word recovers the word: the forward
direction follows from the backward one because tempering, viewed as a
function on the finite set of 32-bit words, is injective. -/
theorem temper_untemper {y : ℕ} (hy : y < 2 ^ 32) : temper (untemper y) = y := by
  have hinj : Function.Injective
      (fun a : Fin (2 ^ 32) => (⟨temper a.1, temper_lt a.1⟩ : Fin (2 ^ 32))) := by
    intro a b hab
    have h1 : temper a.1 = temper b.1 := congrArg Fin.val hab
    have h2 : untemper (temper a.1) = untemper (temper b.1) := congrArg untemper h1
    rw [untemper_temper a.2, untemper_temper b.2] at h2
    exact Fin.ext h2
  have hsurj := Finite.surjective_of_injective hinj
  obtain ⟨a, ha⟩ := hsurj ⟨y, hy⟩
  have hval : temper a.1 = y := congrArg Fin.val ha
  have h3 : untemper y = a.1 := by
    rw [← hval, untemper_temper a.2]
  rw [h3, hval]

theorem UINT64_MASK_eq : UINT64_MASK = 2 ^ 64 - 1 := by
  norm_num [UINT64_MASK, Nat.shiftLeft_eq]

theorem xor_shiftRight_distrib (x y k : ℕ) :
    (x ^^^ y) >>> k = (x >>> k) ^^^ (y >>> k) := by
  apply Nat.eq_of_testBit_eq
  intro i
  simp [Nat.testBit_xor, Nat.testBit_shiftRight]

theorem xor_shiftLeft_distrib (x y k : ℕ) :
    (x ^^^ y) <<< k = (x <<< k) ^^^ (y <<< k) := by
  apply Nat.eq_of_testBit_eq
  intro i
  simp [Nat.testBit_xor, Nat.testBit_shiftLeft, Bool.and_xor_distrib_left]

theorem xor_unscramble (b s t : ℕ) : (((b ^^^ s) ^^^ t) ^^^ s) ^^^ t = b := by
  apply Nat.eq_of_testBit_eq
  intro i
  simp only [Nat.testBit_xor]
  cases b.testBit i <;> cases s.testBit i <;> cases t.testBit i <;> rfl

theorem xor_telescope4 (a b c d e : ℕ) :
    (((a ^^^ b) ^^^ (b ^^^ c)) ^^^ (c ^^^ d)) ^^^ (d ^^^ e) = a ^^^ e := by
  apply Nat.eq_of_testBit_eq
  intro i
  simp only [Nat.testBit_xor]
  cases a.testBit i <;> cases b.testBit i <;> cases c.testBit i <;> cases d.testBit i <;>
    cases e.testBit i <;> rfl

theorem xor_telescope3 (a b c : ℕ) : ((a ^^^ b) ^^^ (b ^^^ c)) ^^^ c = a := by
  apply Nat.eq_of_testBit_eq
  intro i
  simp only [Nat.testBit_xor]
  cases a.testBit i <;> cases b.testBit i <;> cases c.testBit i <;> rfl

/-- The middle portion of previous_state undoes the shift-right-by-17 xor step
of next_state, on every value below 2 to the 64. -/
theorem shiftRight17_inverse {a : ℕ} (ha : a < 2 ^ 64) :
    (((a ^^^ a >>> 17) ^^^ (a ^^^ a >>> 17) >>> 17) ^^^ (a ^^^ a >>> 17) >>> 34) ^^^
      (a ^^^ a >>> 17) >>> 51 = a := by
  have h17 : (a ^^^ a >>> 17) >>> 17 = a >>> 17 ^^^ a >>> 34 := by
    rw [xor_shiftRight_distrib, ← Nat.shiftRight_add]
  have h34 : (a ^^^ a >>> 17) >>> 34 = a >>> 34 ^^^ a >>> 51 := by
    rw [xor_shiftRight_distrib, ← Nat.shiftRight_add]
  have h51 : (a ^^^ a >>> 17) >>> 51 = a >>> 51 ^^^ a >>> 68 := by
    rw [xor_shiftRight_distrib, ← Nat.shiftRight_add]
  have h68 : a >>> 68 = 0 := by
    rw [Nat.shiftRight_eq_div_pow]
    exact Nat.div_eq_of_lt (Nat.lt_of_lt_of_le ha (by norm_num))
  rw [h17, h34, h51, xor_telescope4, h68, Nat.xor_zero]

theorem mask_shift_mask (x k : ℕ) :
    ((x &&& UINT64_MASK) <<< k) &&& UINT64_MASK = (x <<< k) &&& UINT64_MASK := by
  rw [UINT64_MASK_eq, Nat.and_pow_two_sub_one_eq_mod, Nat.and_pow_two_sub_one_eq_mod,
    Nat.and_pow_two_sub_one_eq_mod, Nat.shiftLeft_eq, Nat.shiftLeft_eq, Nat.mod_mul_mod]

theorem shift64_masked_zero (x : ℕ) : (x <<< 69) &&& UINT64_MASK = 0 := by
  have h : x <<< 69 = (x <<< 5) <<< 64 := by
    rw [← Nat.shiftLeft_add]
  rw [h, UINT64_MASK_eq, Nat.and_pow_two_sub_one_eq_mod, Nat.shiftLeft_eq,
    Nat.mul_mod_left]

/-- The final portion of previous_state undoes the masked shift-left-by-23 xor
step of next_state, on every 64-bit value. -/
theorem shiftLeft23_inverse {u : ℕ} (hu : u < 2 ^ 64) :
    (((u ^^^ ((u <<< 23) &&& UINT64_MASK)) ^^^
        (u ^^^ ((u <<< 23) &&& UINT64_MASK)) <<< 23) ^^^
      (u ^^^ ((u <<< 23) &&& UINT64_MASK)) <<< 46) &&& UINT64_MASK = u := by
  have hMlt : UINT64_MASK < 2 ^ 64 := by
    rw [UINT64_MASK_eq]
    omega
  set v23 := (u <<< 23) &&& UINT64_MASK with hv23
  have hv23lt : v23 < 2 ^ 64 := Nat.and_lt_two_pow _ hMlt
  have haalt : u ^^^ v23 < 2 ^ 64 := Nat.xor_lt_two_pow hu hv23lt
  have step1 : (u ^^^ v23) &&& UINT64_MASK = u ^^^ v23 := by
    rw [UINT64_MASK_eq]
    exact Nat.and_pow_two_sub_one_of_lt_two_pow haalt
  have hshift46 : (v23 <<< 23) &&& UINT64_MASK = (u <<< 46) &&& UINT64_MASK := by
    rw [hv23, mask_shift_mask, ← Nat.shiftLeft_add]
  have hshift69 : (v23 <<< 46) &&& UINT64_MASK = 0 := by
    rw [hv23, mask_shift_mask, ← Nat.shiftLeft_add]
    exact shift64_masked_zero u
  have step2 : ((u ^^^ v23) <<< 23) &&& UINT64_MASK =
      v23 ^^^ ((u <<< 46) &&& UINT64_MASK) := by
    rw [xor_shiftLeft_distrib, Nat.and_xor_distrib_right, hshift46, ← hv23]
  have step3 : ((u ^^^ v23) <<< 46) &&& UINT64_MASK = (u <<< 46) &&& UINT64_MASK := by
    rw [xor_shiftLeft_distrib, Nat.and_xor_distrib_right, hshift69, Nat.xor_zero]
  rw [Nat.and_xor_distrib_right, Nat.and_xor_distrib_right, step1, step2, step3,
    xor_telescope3]

theorem TWO_POW_53_eq : TWO_POW_53 = 2 ^ 53 := by
  norm_num [TWO_POW_53, Nat.shiftLeft_eq]

theorem EXPONENT_MASK_eq : EXPONENT_MASK = 2 ^ 52 * 1023 := by
  norm_num [EXPONENT_MASK]

theorem shiftRight_shiftLeft_of_mod_eq_zero {s k : ℕ} (h : s % 2 ^ k = 0) :
    (s >>> k) <<< k = s := by
  rw [Nat.shiftRight_eq_div_pow, Nat.shiftLeft_eq]
  exact Nat.div_mul_cancel (Nat.dvd_of_mod_eq_zero h)

/-- Round trip for DivisionConverter on states whose low 11 bits are zero. -/
theorem division_round_trip {s : ℕ} (hs : s < 2 ^ 64) (hmod : s % 2 ^ 11 = 0) :
    DivisionConverter.from_double (DivisionConverter.to_double s) = s := by
  simp only [DivisionConverter]
  have hne : ((TWO_POW_53 : ℕ) : ℚ) ≠ 0 := by
    rw [TWO_POW_53_eq]
    norm_num
  rw [div_mul_cancel₀ _ hne, Int.floor_natCast, Int.toNat_natCast,
    shiftRight_shiftLeft_of_mod_eq_zero hmod, UINT64_MASK_eq,
    Nat.and_pow_two_sub_one_of_lt_two_pow hs]

/-- Round trip for BinaryCastConverter on states whose low 12 bits are zero. -/
theorem binary_cast_round_trip {s : ℕ} (hs : s < 2 ^ 64) (hmod : s % 2 ^ 12 = 0) :
    BinaryCastConverter.from_double (BinaryCastConverter.to_double s) = s := by
  have hm : s >>> 12 < 2 ^ 52 := by
    rw [Nat.shiftRight_eq_div_pow]
    apply Nat.div_lt_of_lt_mul
    calc s < 2 ^ 64 := hs
    _ = 2 ^ 12 * 2 ^ 52 := by norm_num
  have hor : (s >>> 12) ||| EXPONENT_MASK = 2 ^ 52 * 1023 + s >>> 12 := by
    rw [Nat.lor_comm, EXPONENT_MASK_eq]
    exact (Nat.mul_add_lt_is_or hm 1023).symm
  have hlow : ((s >>> 12) ||| EXPONENT_MASK) &&& (2 ^ 52 - 1) = s >>> 12 := by
    rw [hor, Nat.and_pow_two_sub_one_eq_mod]
    omega
  have hsm : s >>> 12 * 2 ^ 12 = s := by
    rw [Nat.shiftRight_eq_div_pow]
    exact Nat.div_mul_cancel (Nat.dvd_of_mod_eq_zero hmod)
  have hlift : 2 ^ 52 * 1023 * 2 ^ 12 = 2 ^ 64 * 1023 := by norm_num
  have h52ne : (2 ^ 52 : ℚ) ≠ 0 := by norm_num
  simp only [BinaryCastConverter, bitsOfDouble]
  rw [sub_add_cancel]
  simp only [doubleOfBits]
  rw [hlow, add_sub_cancel_left, div_mul_cancel₀ _ h52ne, Int.floor_natCast,
    Int.toNat_natCast, EXPONENT_MASK_eq, (Nat.mul_add_lt_is_or hm 1023).symm,
    UINT64_MASK_eq, Nat.and_pow_two_sub_one_eq_mod, Nat.shiftLeft_eq,
    Nat.add_mul, hsm, hlift]
  omega

/-! ### Supporting lemmas for the status machine claims -/

theorem update_state_from_model_status (o : SmtOracle) (st : V8CrackerState) :
    (update_state_from_model o st).status = st.status := by
  rw [update_state_from_model]
  split <;> rfl

theorem update_state_from_model_observed (o : SmtOracle) (st : V8CrackerState) :
    (update_state_from_model o st).observed_values = st.observed_values := by
  rw [update_state_from_model]
  split <;> rfl

theorem update_state_from_model_constraints (o : SmtOracle) (st : V8CrackerState) :
    (update_state_from_model o st).constraints = st.constraints := by
  rw [update_state_from_model]
  split <;> rfl

theorem dropLoop_of_check {o : SmtOracle} (obs cs : List ℚ)
    (h : o.check cs = true) : dropLoop o obs cs = (obs, cs) := by
  rw [dropLoop.eq_def, if_pos h]

/-- Characterisation of the pop-until-sat loop: starting from an
unsatisfiable constraint set, it drops some positive number k of oldest
observations, the remaining suffix checks SAT, and every shorter positive
drop still checks UNSAT. -/
theorem dropLoop_spec (o : SmtOracle) (hempty : o.check [] = true) :
    ∀ obs cs : List ℚ, o.check cs = false →
      ∃ k, 0 < k ∧ k ≤ obs.length + 1 ∧
        dropLoop o obs cs = (obs.drop k, obs.drop k) ∧
        o.check (obs.drop k) = true ∧
        ∀ j, 0 < j → j < k → o.check (obs.drop j) = false := by
  intro obs
  induction obs with
  | nil =>
    intro cs h
    refine ⟨1, Nat.one_pos, by norm_num, ?_, by simpa using hempty, ?_⟩
    · rw [dropLoop.eq_def, if_neg (by simp [h])]
      simp
    · intro j hj hjk
      omega
  | cons a rest ih =>
    intro cs h
    have hstep : dropLoop o (a :: rest) cs = dropLoop o rest rest := by
      rw [dropLoop.eq_def, if_neg (by simp [h])]
    by_cases hr : o.check rest = true
    · refine ⟨1, Nat.one_pos, by simp, ?_, by simpa using hr, ?_⟩
      · rw [hstep, dropLoop_of_check rest rest hr]
        simp
      · intro j hj hjk
        omega
    · have hrf : o.check rest = false := by
        cases hcr : o.check rest
        · rfl
        · exact absurd hcr hr
      obtain ⟨k, hk0, hkle, heq, hchk, hmin⟩ := ih rest hrf
      refine ⟨k + 1, by omega, by simp; omega, ?_, ?_, ?_⟩
      · rw [hstep, heq]
        simp [List.drop_succ_cons]
      · simpa [List.drop_succ_cons] using hchk
      · intro j hj hjk
        match j, hj with
        | 1, _ => simpa using hrf
        | j2 + 2, _ =>
          have := hmin (j2 + 1) (by omega) (by omega)
          simpa [List.drop_succ_cons] using this

/-! ### Claim theorems -/

/-- C3: for every 32-bit word y, applying the MT19937 forward tempering
permutation to the untempered value of y yields y, and applying the
untempering to the tempered value of y yields y back; tempering and
untempering are mutually inverse bijections over uint32. -/
theorem claim_C3_temper_untemper_inverse (y : ℕ) (hy : y < 2 ^ 32) :
    temper (untemper y) = y ∧ untemper (temper y) = y :=
  ⟨temper_untemper hy, untemper_temper hy⟩

theorem claim_C3_witness :
    (0xDEADBEEF : ℕ) < 2 ^ 32 ∧
      (temper (untemper 0xDEADBEEF) = 0xDEADBEEF ∧
        untemper (temper 0xDEADBEEF) = 0xDEADBEEF) :=
  ⟨by norm_num, claim_C3_temper_untemper_inverse 0xDEADBEEF (by norm_num)⟩

/-- C4: for every pair of 64-bit words, previous_state applied to the result
of next_state recovers the original pair: the xorshift128+ backward transition
is a left inverse of the forward transition on the whole state space. -/
theorem claim_C4_previous_next_identity (s0 s1 : ℕ) (h0 : s0 < 2 ^ 64)
    (h1 : s1 < 2 ^ 64) :
    previous_state (next_state s0 s1).1 (next_state s0 s1).2 = (s0, s1) := by
  have hMlt : UINT64_MASK < 2 ^ 64 := by
    rw [UINT64_MASK_eq]
    omega
  have ht1lt : s0 ^^^ ((s0 <<< 23) &&& UINT64_MASK) < 2 ^ 64 :=
    Nat.xor_lt_two_pow h0 (Nat.and_lt_two_pow _ hMlt)
  simp only [next_state, previous_state]
  rw [xor_unscramble]
  rw [shiftRight17_inverse ht1lt]
  rw [shiftLeft23_inverse h0]

theorem claim_C4_witness :
    (0x123456789ABCDEF0 : ℕ) < 2 ^ 64 ∧ (0xFEDCBA9876543210 : ℕ) < 2 ^ 64 ∧
      previous_state (next_state 0x123456789ABCDEF0 0xFEDCBA9876543210).1
          (next_state 0x123456789ABCDEF0 0xFEDCBA9876543210).2 =
        (0x123456789ABCDEF0, 0xFEDCBA9876543210) :=
  ⟨by norm_num, by norm_num,
    claim_C4_previous_next_identity _ _ (by norm_num) (by norm_num)⟩

/-- C8: for each converter among DivisionConverter and BinaryCastConverter,
and for every 64-bit state whose low ignored bits (11 for the division
converter, 12 for the binary-cast converter) are zero, from_double inverts
to_double. -/
theorem claim_C8_converter_round_trip (s : ℕ) (hs : s < 2 ^ 64) :
    (s % 2 ^ DivisionConverter.get_ignored_lower_bits = 0 →
      DivisionConverter.from_double (DivisionConverter.to_double s) = s) ∧
    (s % 2 ^ BinaryCastConverter.get_ignored_lower_bits = 0 →
      BinaryCastConverter.from_double (BinaryCastConverter.to_double s) = s) ∧
    DivisionConverter.get_ignored_lower_bits = 11 ∧
    BinaryCastConverter.get_ignored_lower_bits = 12 :=
  ⟨fun h => division_round_trip hs h, fun h => binary_cast_round_trip hs h,
    rfl, rfl⟩

theorem claim_C8_witness :
    ((0x123456789ABCD000 : ℕ) < 2 ^ 64 ∧
      (0x123456789ABCD000 : ℕ) % 2 ^ DivisionConverter.get_ignored_lower_bits = 0 ∧
      (0x123456789ABCD000 : ℕ) % 2 ^ BinaryCastConverter.get_ignored_lower_bits = 0) ∧
    DivisionConverter.from_double
        (DivisionConverter.to_double 0x123456789ABCD000) = 0x123456789ABCD000 ∧
    BinaryCastConverter.from_double
        (BinaryCastConverter.to_double 0x123456789ABCD000) = 0x123456789ABCD000 :=
  ⟨⟨by norm_num, by decide, by decide⟩,
    (claim_C8_converter_round_trip 0x123456789ABCD000 (by norm_num)).1 (by decide),
    (claim_C8_converter_round_trip 0x123456789ABCD000 (by norm_num)).2.1 (by decide)⟩

/-- C9: NOT_SOLVABLE is terminal and absorbing for every solver: with the
status NOT_SOLVABLE, add_value raises the not-solvable error and leaves the
status (and, beyond the appended observation buffer of the V8 solver, the
whole state) unchanged. -/
theorem claim_C9_not_solvable_absorbing :
    (∀ (conv : RNGStateConverter) (o : SmtOracle) (st : V8CrackerState) (v : ℚ),
        st.status = SolverStatus.NOT_SOLVABLE →
          v8_add_value conv o st v =
            ({ st with observed_values := st.observed_values ++ [v] },
              some CrackerError.notSolvable)) ∧
    (∀ (st : MT19937CrackerState) (v : ℕ),
        st.status = SolverStatus.NOT_SOLVABLE →
          mt_add_value st v = (st, some CrackerError.notSolvable)) := by
  constructor
  · intro conv o st v h
    simp [v8_add_value, h]
  · intro st v h
    simp [mt_add_value, h]

theorem claim_C9_witness :
    v8WitNS.status = SolverStatus.NOT_SOLVABLE ∧
    mtWitNS.status = SolverStatus.NOT_SOLVABLE ∧
    v8_add_value DivisionConverter oracleTrue v8WitNS 0 =
      ({ v8WitNS with observed_values := v8WitNS.observed_values ++ [0] },
        some CrackerError.notSolvable) ∧
    mt_add_value mtWitNS 0 = (mtWitNS, some CrackerError.notSolvable) :=
  ⟨rfl, rfl,
    claim_C9_not_solvable_absorbing.1 DivisionConverter oracleTrue v8WitNS 0 rfl,
    claim_C9_not_solvable_absorbing.2 mtWitNS 0 rfl⟩

/-- C10: a fresh V8 solver has candidate pair (0, 0), so when the very first
observation equals to_double of 0 (which is the rational 0 for both
converters), the solver moves straight from SOLVING to
SOLVED_BEFORE_CACHE_REFILL, adds no constraint, and never consults the SMT
oracle: the outcome is independent of the oracle. -/
theorem claim_C10_zero_state_shortcut (conv : RNGStateConverter) (o : SmtOracle) :
    v8_add_value conv o initV8Cracker (conv.to_double 0) =
      ({ status := SolverStatus.SOLVED_BEFORE_CACHE_REFILL
         s0_val := (previous_state 0 0).1
         s1_val := (previous_state 0 0).2
         cache_refill_counter := 0
         observed_values := [conv.to_double 0]
         constraints := [] }, none) ∧
    (∀ o2 : SmtOracle,
        v8_add_value conv o initV8Cracker (conv.to_double 0) =
          v8_add_value conv o2 initV8Cracker (conv.to_double 0)) ∧
    DivisionConverter.to_double 0 = 0 ∧ BinaryCastConverter.to_double 0 = 0 := by
  have hstep : ∀ o3 : SmtOracle,
      v8_add_value conv o3 initV8Cracker (conv.to_double 0) =
        ({ status := SolverStatus.SOLVED_BEFORE_CACHE_REFILL
           s0_val := (previous_state 0 0).1
           s1_val := (previous_state 0 0).2
           cache_refill_counter := 0
           observed_values := [conv.to_double 0]
           constraints := [] }, none) := by
    intro o3
    simp [v8_add_value, initV8Cracker, handle_solving, is_prediction_correct,
      peek_next_prediction, rotate_state]
  refine ⟨hstep o, fun o2 => by rw [hstep o, hstep o2], ?_, ?_⟩
  · simp [DivisionConverter, Nat.zero_shiftRight]
  · have hand : EXPONENT_MASK &&& 4503599627370495 = 0 := by decide
    simp [BinaryCastConverter, doubleOfBits, Nat.zero_shiftRight, hand]

/-- C1: in state CACHE_REFILLED_WHILE_SOLVING, a new observation the concrete
candidate predicts wrongly gets its constraint added, and while the solver
check is not SAT the oldest buffered observation is dropped (rebuilding the
remaining constraints) and the check retried; a new observation the candidate
predicts correctly sets cache_refill_counter to 64 minus the number of
buffered observations plus 1 and moves the status to SOLVED. The hypothesis
on the empty constraint list records that Z3 reports an empty constraint set
satisfiable, which is what terminates the drop loop in the worst case. -/
theorem claim_C1_cache_refilled_while_solving (conv : RNGStateConverter)
    (o : SmtOracle) (st : V8CrackerState) (v : ℚ)
    (hst : st.status = SolverStatus.CACHE_REFILLED_WHILE_SOLVING)
    (hempty : o.check [] = true) :
    (conv.to_double st.s0_val = v → C1MatchPost conv o st v) ∧
    (conv.to_double st.s0_val ≠ v → C1MissPost conv o st v) := by
  constructor
  · intro hv
    rw [C1MatchPost]
    simp [v8_add_value, hst, handle_cache_refilled_while_solving,
      is_prediction_correct, peek_next_prediction, hv, rotate_state]
  · intro hv
    rw [C1MissPost]
    have hbranch : v8_add_value conv o st v =
        (update_state_from_model o
          (drop_until_sat o
            { st with
                observed_values := st.observed_values ++ [v]
                constraints := st.constraints ++ [v] }), none) := by
      simp [v8_add_value, hst, handle_cache_refilled_while_solving,
        is_prediction_correct, peek_next_prediction, hv, add_constraint]
    by_cases hchk : o.check (st.constraints ++ [v]) = true
    · refine ⟨0, by omega, ?_, ?_, ?_, ?_, fun _ => hchk, fun h0 => absurd h0 (by omega)⟩
      · rw [hbranch]
      · rw [hbranch]
        simp [update_state_from_model_status, drop_until_sat, hst]
      · rw [hbranch]
        simp [update_state_from_model_observed, drop_until_sat,
          dropLoop_of_check _ _ hchk]
      · rw [hbranch]
        simp [update_state_from_model_constraints, drop_until_sat,
          dropLoop_of_check _ _ hchk]
    · have hchkf : o.check (st.constraints ++ [v]) = false := by
        cases hcc : o.check (st.constraints ++ [v])
        · rfl
        · exact absurd hcc hchk
      obtain ⟨k, hk0, hkle, heq, hsat, hmin⟩ :=
        dropLoop_spec o hempty (st.observed_values ++ [v]) (st.constraints ++ [v]) hchkf
      have hklen : k ≤ (st.observed_values ++ [v]).length := by
        rcases Nat.lt_or_ge k ((st.observed_values ++ [v]).length + 1) with hlt | hge
        · omega
        · exfalso
          have hlenpos : 0 < (st.observed_values ++ [v]).length := by simp
          have hfull := hmin (st.observed_values ++ [v]).length hlenpos (by omega)
          rw [List.drop_length] at hfull
          rw [hempty] at hfull
          exact Bool.noConfusion hfull
      have hkne : k ≠ 0 := by omega
      refine ⟨k, hklen, ?_, ?_, ?_, ?_, fun h0 => absurd h0 (by omega),
        fun _ => ⟨hchkf, hsat, hmin⟩⟩
      · rw [hbranch]
      · rw [hbranch]
        simp [update_state_from_model_status, drop_until_sat, hst]
      · rw [hbranch]
        simp [update_state_from_model_observed, drop_until_sat, heq]
      · rw [hbranch]
        simp [update_state_from_model_constraints, drop_until_sat, heq, hkne]

theorem claim_C1_witness :
    v8WitCRWS.status = SolverStatus.CACHE_REFILLED_WHILE_SOLVING ∧
    oracleTrue.check [] = true ∧
    ((DivisionConverter.to_double v8WitCRWS.s0_val = 1 →
        C1MatchPost DivisionConverter oracleTrue v8WitCRWS 1) ∧
      (DivisionConverter.to_double v8WitCRWS.s0_val ≠ 1 →
        C1MissPost DivisionConverter oracleTrue v8WitCRWS 1)) :=
  ⟨rfl, rfl,
    claim_C1_cache_refilled_while_solving DivisionConverter oracleTrue
      v8WitCRWS 1 rfl rfl⟩

/-- C2: in state SOLVED_BEFORE_CACHE_REFILL, a new observation that differs
from the concrete candidate prediction makes the solver advance the concrete
state by exactly 128 forward next_state steps (CACHE_REFILL_SIZE * 2 with
CACHE_REFILL_SIZE = 64), set cache_refill_counter to 64, and re-check the
candidate: a matching re-check yields status SOLVED with the candidate
rotated, a mismatching re-check yields terminal NOT_SOLVABLE. -/
theorem claim_C2_solved_before_cache_refill (conv : RNGStateConverter)
    (o : SmtOracle) (st : V8CrackerState) (v : ℚ)
    (hst : st.status = SolverStatus.SOLVED_BEFORE_CACHE_REFILL)
    (hmiss : conv.to_double st.s0_val ≠ v) :
    CACHE_REFILL_SIZE * 2 = 128 ∧
    (conv.to_double
        (nextStateIter (CACHE_REFILL_SIZE * 2) (st.s0_val, st.s1_val)).1 = v →
      C2RecheckMatchPost conv o st v) ∧
    (conv.to_double
        (nextStateIter (CACHE_REFILL_SIZE * 2) (st.s0_val, st.s1_val)).1 ≠ v →
      C2RecheckMissPost conv o st v) := by
  refine ⟨rfl, ?_, ?_⟩
  · intro hv
    rw [C2RecheckMatchPost]
    simp [v8_add_value, hst, handle_solved_before_cache_refill,
      is_prediction_correct, peek_next_prediction, hmiss, handle_cache_refill,
      hv, rotate_state]
  · intro hv
    rw [C2RecheckMissPost]
    simp [v8_add_value, hst, handle_solved_before_cache_refill,
      is_prediction_correct, peek_next_prediction, hmiss, handle_cache_refill,
      hv, rotate_state]

theorem claim_C2_witness :
    v8WitSBCR.status = SolverStatus.SOLVED_BEFORE_CACHE_REFILL ∧
    DivisionConverter.to_double v8WitSBCR.s0_val ≠ 1 ∧
    (CACHE_REFILL_SIZE * 2 = 128 ∧
      (DivisionConverter.to_double
          (nextStateIter (CACHE_REFILL_SIZE * 2) (v8WitSBCR.s0_val, v8WitSBCR.s1_val)).1 = 1 →
        C2RecheckMatchPost DivisionConverter oracleTrue v8WitSBCR 1) ∧
      (DivisionConverter.to_double
          (nextStateIter (CACHE_REFILL_SIZE * 2) (v8WitSBCR.s0_val, v8WitSBCR.s1_val)).1 ≠ 1 →
        C2RecheckMissPost DivisionConverter oracleTrue v8WitSBCR 1)) :=
  ⟨rfl, by norm_num [DivisionConverter, v8WitSBCR, Nat.zero_shiftRight],
    claim_C2_solved_before_cache_refill DivisionConverter oracleTrue v8WitSBCR 1
      rfl (by norm_num [DivisionConverter, v8WitSBCR, Nat.zero_shiftRight])⟩

/-- Feeding fewer observations than complete the 624-word buffer keeps the
MT19937 solver in SOLVING and appends the untempered values. -/
theorem mt_feed_from_partial (vs : List ℕ) :
    ∀ st : MT19937CrackerState, st.status = SolverStatus.SOLVING →
      st.state.length + vs.length < N →
      mt_feed_from st vs = { st with state := st.state ++ vs.map untemper } := by
  induction vs with
  | nil =>
    intro st hstatus hlen
    cases st
    simp [mt_feed_from]
  | cons v rest ih =>
    intro st hstatus hlen
    have hlencount : st.state.length + (rest.length + 1) < N := by
      simpa using hlen
    have hlen1 : ¬st.state.length + 1 = N := by omega
    have hstep : (mt_add_value st v).1 =
        { st with state := st.state ++ [untemper v] } := by
      simp [mt_add_value, hstatus, mt_handle_solving, hlen1]
    have hrec := ih { st with state := st.state ++ [untemper v] }
      (by simpa using hstatus)
      (by simp only [List.length_append, List.length_cons, List.length_nil]; omega)
    simp only [mt_feed_from, List.foldl_cons] at hrec ⊢
    rw [hstep, hrec]
    simp

/-- C5: a fresh MT19937 algebraic solver stays in SOLVING through any run of
fewer than 624 add_value calls, buffering the untempered values; on the 624th
it untempers all 624 buffered values into a state vector, installs it with
index 624, and the status becomes SOLVED. -/
theorem claim_C5_mt_solving_to_solved (vs : List ℕ) :
    (vs.length < N →
      (mt_feed vs).status = SolverStatus.SOLVING ∧
      (mt_feed vs).state = vs.map untemper) ∧
    (vs.length = N →
      (mt_feed vs).status = SolverStatus.SOLVED ∧
      (mt_feed vs).state = vs.map untemper ∧
      (mt_feed vs).random = some ⟨vs.map untemper, N⟩) := by
  constructor
  · intro hlen
    have h := mt_feed_from_partial vs initMT19937Cracker rfl
      (by simpa [initMT19937Cracker] using hlen)
    rw [mt_feed, h]
    constructor <;> simp [initMT19937Cracker]
  · intro hlen
    have hne : vs ≠ [] := by
      intro h
      rw [h] at hlen
      simp [N] at hlen
    have hsplit : vs.dropLast ++ [vs.getLast hne] = vs := List.dropLast_append_getLast hne
    have hlenl : vs.dropLast.length = N - 1 := by
      rw [List.length_dropLast, hlen]
    have hpart := mt_feed_from_partial vs.dropLast initMT19937Cracker rfl
      (by simp [initMT19937Cracker, hlenl, N])
    have hfoldsplit : mt_feed vs =
        mt_feed_from (mt_feed_from initMT19937Cracker vs.dropLast) [vs.getLast hne] := by
      rw [mt_feed]
      conv_lhs => rw [← hsplit]
      simp [mt_feed_from, List.foldl_append]
    have hstate2 : ((vs.dropLast.map untemper) ++ [untemper (vs.getLast hne)]).length = N := by
      simp only [List.length_append, List.length_map, List.length_singleton, hlenl]
      have : 0 < N := by norm_num [N]
      omega
    have hmapsplit : vs.dropLast.map untemper ++ [untemper (vs.getLast hne)] =
        vs.map untemper := by
      calc vs.dropLast.map untemper ++ [untemper (vs.getLast hne)]
          = (vs.dropLast ++ [vs.getLast hne]).map untemper := by
            rw [List.map_append]
            rfl
        _ = vs.map untemper := by rw [hsplit]
    rw [hfoldsplit, hpart]
    simp only [mt_feed_from, List.foldl_cons, List.foldl_nil]
    have hfinal : mt_add_value
        { initMT19937Cracker with
            state := initMT19937Cracker.state ++ vs.dropLast.map untemper }
        (vs.getLast hne) =
        ({ status := SolverStatus.SOLVED
           state := vs.map untemper
           random := some ⟨vs.map untemper, N⟩ }, none) := by
      simp only [mt_add_value, initMT19937Cracker, mt_handle_solving,
        List.nil_append]
      rw [if_pos (by simpa using hstate2)]
      rw [hmapsplit]
    rw [hfinal]
    exact ⟨rfl, rfl, rfl⟩

theorem claim_C5_witness :
    ((List.replicate 623 (0 : ℕ)).length < N ∧
      (mt_feed (List.replicate 623 0)).status = SolverStatus.SOLVING ∧
      (mt_feed (List.replicate 623 0)).state = (List.replicate 623 0).map untemper) ∧
    ((List.replicate 624 (0 : ℕ)).length = N ∧
      (mt_feed (List.replicate 624 0)).status = SolverStatus.SOLVED ∧
      (mt_feed (List.replicate 624 0)).state = (List.replicate 624 0).map untemper ∧
      (mt_feed (List.replicate 624 0)).random =
        some ⟨(List.replicate 624 0).map untemper, N⟩) :=
  ⟨⟨by norm_num [N], (claim_C5_mt_solving_to_solved (List.replicate 623 0)).1 (by norm_num [N])⟩,
    ⟨by norm_num [N], (claim_C5_mt_solving_to_solved (List.replicate 624 0)).2 (by norm_num [N])⟩⟩

/-- C6: with the MT19937 solver in SOLVED holding the reconstructed
generator, every add_value consumes the generator's next 32-bit output and is
accepted exactly when the observation equals that output, the first differing
observation making the status NOT_SOLVABLE with the not-solvable failure;
predict_next returns the generator's next 32-bit output in SOLVED, raises the
not-enough-data failure in SOLVING, and raises the not-solvable failure in
NOT_SOLVABLE. -/
theorem claim_C6_mt_solved_validation :
    (∀ (st : MT19937CrackerState) (g : MersenneTwisterGenerator) (v : ℕ),
        st.status = SolverStatus.SOLVED → st.random = some g →
          ((mt_add_value st v).2 = none ↔ v = (gen_rand_uint32 g).1) ∧
          (mt_add_value st v).1.random = some (gen_rand_uint32 g).2 ∧
          (mt_add_value st v).1.status =
            (if v = (gen_rand_uint32 g).1 then SolverStatus.SOLVED
              else SolverStatus.NOT_SOLVABLE) ∧
          (mt_add_value st v).2 =
            (if v = (gen_rand_uint32 g).1 then none
              else some CrackerError.notSolvable)) ∧
    (∀ (st : MT19937CrackerState) (g : MersenneTwisterGenerator),
        st.status = SolverStatus.SOLVED → st.random = some g →
          mt_predict_next st =
            ({ st with random := some (gen_rand_uint32 g).2 },
              Except.ok (gen_rand_uint32 g).1)) ∧
    (∀ st : MT19937CrackerState, st.status = SolverStatus.SOLVING →
        mt_predict_next st = (st, Except.error CrackerError.notEnoughData)) ∧
    (∀ st : MT19937CrackerState, st.status = SolverStatus.NOT_SOLVABLE →
        mt_predict_next st = (st, Except.error CrackerError.notSolvable)) := by
  refine ⟨?_, ?_, ?_, ?_⟩
  · intro st g v hstatus hrand
    by_cases hv : (gen_rand_uint32 g).1 = v
    · simp [mt_add_value, hstatus, hrand, hv]
    · have hv2 : ¬v = (gen_rand_uint32 g).1 := fun h => hv h.symm
      simp [mt_add_value, hstatus, hrand, hv, hv2]
  · intro st g hstatus hrand
    simp [mt_predict_next, hstatus, hrand]
  · intro st hstatus
    simp [mt_predict_next, hstatus]
  · intro st hstatus
    simp [mt_predict_next, hstatus]

theorem claim_C6_witness :
    (mtWitSolved.status = SolverStatus.SOLVED ∧
      mtWitSolved.random = some mtWitGen ∧
      mtWitSolving.status = SolverStatus.SOLVING ∧
      mtWitNS.status = SolverStatus.NOT_SOLVABLE) ∧
    (((mt_add_value mtWitSolved 7).2 = none ↔ 7 = (gen_rand_uint32 mtWitGen).1) ∧
      (mt_add_value mtWitSolved 7).1.random = some (gen_rand_uint32 mtWitGen).2 ∧
      (mt_add_value mtWitSolved 7).1.status =
        (if 7 = (gen_rand_uint32 mtWitGen).1 then SolverStatus.SOLVED
          else SolverStatus.NOT_SOLVABLE) ∧
      (mt_add_value mtWitSolved 7).2 =
        (if 7 = (gen_rand_uint32 mtWitGen).1 then none
          else some CrackerError.notSolvable)) ∧
    mt_predict_next mtWitSolved =
      ({ mtWitSolved with random := some (gen_rand_uint32 mtWitGen).2 },
        Except.ok (gen_rand_uint32 mtWitGen).1) ∧
    mt_predict_next mtWitSolving = (mtWitSolving, Except.error CrackerError.notEnoughData) ∧
    mt_predict_next mtWitNS = (mtWitNS, Except.error CrackerError.notSolvable) :=
  ⟨⟨rfl, rfl, rfl, rfl⟩,
    claim_C6_mt_solved_validation.1 mtWitSolved mtWitGen 7 rfl rfl,
    claim_C6_mt_solved_validation.2.1 mtWitSolved mtWitGen rfl rfl,
    claim_C6_mt_solved_validation.2.2.1 mtWitSolving rfl,
    claim_C6_mt_solved_validation.2.2.2 mtWitNS rfl⟩

/-- C7 evaluation: the factory resolves V8 and MT19937 to classes carrying
the requested tag, but no registered class carries V8_LEGACY (V8CrackerLegacy
inherits rng_type V8), so create raises ValueError for V8_LEGACY; and V8_INT
is not a member of RngType at all, so create cannot even be called with it.
This contradicts the claim that every tag in the set V8, V8_LEGACY, V8_INT,
MT19937 yields a cracker whose rng_type equals the requested tag. -/
theorem claim_C7_factory_dispatch :
    (create RngType.V8).map PyClass.tag = some RngType.V8 ∧
    (create RngType.MT19937).map PyClass.tag = some RngType.MT19937 ∧
    create RngType.V8_LEGACY = none ∧
    rngTypeMember "V8_INT" = none ∧
    V8CrackerLegacyClass.tag = RngType.V8 :=
  ⟨rfl, rfl, rfl, rfl, rfl⟩

end RandomCrackerVerif
